import Mathlib

/-!
Shallow embedding of the BOL-creation pipeline (src/app.py).

The program joins an uploaded shipment spreadsheet (SAP LTL) with an
uploaded order CSV (CommerceHub) and a static carrier-reference table,
then renders one Word document per joined row by literal token
substitution in a template, and zips the results.

Cell values are modelled by `Val`: a string, an integer, or `na`
(pandas NaN / missing).  Python `str()` of a value is `Val.pyStr`;
note `str(float('nan')) = "nan"`.

Note on src/app.py line 132: the source text
`.replace("//"."_")` is a Python SyntaxError (a period where a comma
belongs); the evident intent, `.replace("//","_")`, is what `sanitizeDn`
embeds.  Everything else is translated directly from the source.
-/

/-- A pandas cell value: a string, an integer, or NaN/missing. -/
inductive Val where
  | str (s : String)
  | int (n : Int)
  | na
deriving DecidableEq, Repr

/-- Python `str()` rendering of a cell value; `str(nan)` is `"nan"`. -/
def Val.pyStr : Val → String
  | .str s => s
  | .int n => toString n
  | .na => "nan"

/-- Key equality as used by pandas merges: NaN keys never match, and
values of different types never match. -/
def Val.keyEq : Val → Val → Bool
  | .str a, .str b => a = b
  | .int a, .int b => a = b
  | _, _ => false

/-- True when the value is not NaN (`pd.notna`). -/
def Val.notna : Val → Bool
  | .na => false
  | _ => true

/-- A raw row of the carrier-guide spreadsheet after whitespace
normalisation of column names: OriginState,
SupplierIBtoDC/StoreCarrier, ResidentialDeliveryCarrier(Hd.com),
DestinationState. -/
structure RawCarrierRow where
  originState : Val
  storeCarrier : Val
  residentialCarrier : Val
  destinationState : Val
deriving DecidableEq, Repr

/-- A cleaned carrier row (`TN_carrier_clean`): the kept columns plus
the two derived name columns. -/
structure CarrierRow where
  storeCarrier : Val
  residentialCarrier : Val
  destinationState : Val
  shippingCodeStores : Val
  shippingCodeHomeDelivery : Val
deriving DecidableEq, Repr

/-- The fixed SCAC-to-name dictionary from `load_state_carrier`. -/
def codeMapping (c : String) : Option String :=
  if c = "AACT" then some ("AAA Cooper Transportation")
  else if c = "EXLA" then some ("Estes Express Lines")
  else if c = "CTII" then some ("Central Transport Inc.")
  else if c = "ABFS" then some ("ABF")
  else if c = "RNLO" then some ("R&L Carriers")
  else none

/-- Pandas `Series.map(mapping)`: a key absent from the dictionary
(or a non-string or NaN key) maps to NaN. -/
def Val.mapCode : Val → Val
  | .str s =>
    match codeMapping s with
    | some t => .str t
    | none => .na
  | _ => .na

/-- `load_state_carrier`: filter the guide to OriginState TN, keep the
carrier columns, and derive the two carrier-name columns by the fixed
code-to-name lookup. -/
def load_state_carrier (raws : List RawCarrierRow) : List CarrierRow :=
  (raws.filter (fun r => r.originState = Val.str ("TN"))).map (fun r =>
    { storeCarrier := r.storeCarrier
      residentialCarrier := r.residentialCarrier
      destinationState := r.destinationState
      shippingCodeStores := r.storeCarrier.mapCode
      shippingCodeHomeDelivery := r.residentialCarrier.mapCode })

/-- A row of the CommerceHub CSV after column-name normalisation. -/
structure CsvRow where
  shipToName : Val
  shipToAddress1 : Val
  shipToAddress2 : Val
  shipToCity : Val
  shipToState : Val
  shipToPostalCode : Val
  shipToDayPhone : Val
  poNumber : Val
deriving DecidableEq, Repr

/-- A row of the SAP LTL spreadsheet; `Purchase order no.` is coerced
to an integer by `astype(int)`. -/
structure LtlRow where
  purchaseOrderNo : Int
  orderQuantity : Val
  grossWeight : Val
  palletQty : Val
  dn : Val
  customerOrderNumber : Val
deriving DecidableEq, Repr

/-- The characters of the literal marker in the regex
`Store #(\d\x7b3,\x7d)`. -/
def storeMarker : List Char := [ 'S', 't', 'o', 'r', 'e', ' ', '#' ]

/-- `re.search` semantics of the pattern `Store #(\d\x7b3,\x7d)`: scan
left to right for the first position where the literal marker is
followed by at least three digits; the captured group is the maximal
digit run there. -/
def extractStore : List Char → Option (List Char)
  | [] => none
  | c :: cs =>
    if storeMarker.isPrefixOf (c :: cs) then
      if 3 ≤ (((c :: cs).drop storeMarker.length).takeWhile Char.isDigit).length then
        some (((c :: cs).drop storeMarker.length).takeWhile Char.isDigit)
      else extractStore cs
    else extractStore cs

/-- `df_csv['HD_Store']`: the regex extraction applied to the primary
address line; a non-string address yields NaN, as the pandas `.str`
accessor does. -/
def hdStore (r : CsvRow) : Val :=
  match r.shipToAddress1 with
  | .str s =>
    match extractStore s.data with
    | some d => .str (String.mk d)
    | none => .na
  | _ => .na

/-- Substring occurrence test, Python `key in text`, on character
lists. -/
def hasOccur (key : List Char) : List Char → Bool
  | [] => key.isEmpty
  | c :: cs => key.isPrefixOf (c :: cs) || hasOccur key cs

/-- `Series.str.contains('THD', na=False)`: substring test on strings,
false on NaN or non-string values. -/
def Val.containsTHD : Val → Bool
  | .str s => hasOccur ("THD").data s.data
  | _ => false

/-- `df_csv['ShipToAddress']`: the secondary address line when the
primary one mentions THD, otherwise the primary one. -/
def shipToAddressEff (r : CsvRow) : Val :=
  if r.shipToAddress1.containsTHD then r.shipToAddress2 else r.shipToAddress1

/-- One row of `df_chub`: a CSV row with the left-joined carrier
columns and the two derived columns SCAC and Carrier_name. -/
structure ChubRow where
  csv : CsvRow
  storeCarrier : Val
  residentialCarrier : Val
  shippingCodeStores : Val
  shippingCodeHomeDelivery : Val
  scac : Val
  carrierName : Val
deriving DecidableEq, Repr

/-- Build a `df_chub` row from a CSV row and the carrier fields it
joined with, deriving SCAC and Carrier_name by the two `np.where`
expressions on `HD_Store` presence. -/
def mkChub (o : CsvRow) (sc rc ss sh : Val) : ChubRow :=
  { csv := o
    storeCarrier := sc
    residentialCarrier := rc
    shippingCodeStores := ss
    shippingCodeHomeDelivery := sh
    scac := if (hdStore o).notna then sc else rc
    carrierName := if (hdStore o).notna then ss else sh }

/-- The carrier rows matching a CSV row's destination state. -/
def carrierMatches (car : List CarrierRow) (o : CsvRow) : List CarrierRow :=
  car.filter (fun c => Val.keyEq o.shipToState c.destinationState)

/-- `df_chub`: left join of the CSV rows to the carrier table on
destination state (a row with no match keeps NaN carrier fields),
followed by the SCAC / Carrier_name derivations. -/
def df_chub (csv : List CsvRow) (car : List CarrierRow) : List ChubRow :=
  csv.flatMap (fun o =>
    match carrierMatches car o with
    | [] => [mkChub o .na .na .na .na]
    | ms => ms.map (fun c =>
        mkChub o c.storeCarrier c.residentialCarrier
          c.shippingCodeStores c.shippingCodeHomeDelivery))

/-- A joined BOL row: one LTL row paired with one `df_chub` row. -/
abbrev BolRow := LtlRow × ChubRow

/-- `df_BOL`: inner join of the LTL rows with `df_chub` on
`Purchase order no.` equal to `PONumber`. -/
def df_BOL (ltl : List LtlRow) (chub : List ChubRow) : List BolRow :=
  ltl.flatMap (fun l =>
    (chub.filter (fun c => Val.keyEq (Val.int l.purchaseOrderNo) c.csv.poNumber)).map
      (fun c => (l, c)))

/-- Modelled from the spec: the number of rows of the inner join of the
shipment table and the order table on the order-number key, stated
directly on the two uploaded tables. -/
def spec_innerJoinCount (ltl : List LtlRow) (csv : List CsvRow) : Nat :=
  (ltl.flatMap (fun l =>
    csv.filter (fun o => Val.keyEq (Val.int l.purchaseOrderNo) o.poNumber))).length

/-- Fuel-indexed core of Python `str.replace`: scan left to right,
replacing every non-overlapping occurrence of `key`.  Each step
consumes at least one character, so with fuel at least the text length
the fuel never runs out; the fuel only makes the recursion structural.
A guard skips empty keys; every key the program uses is non-empty. -/
def replGo (key val : List Char) : Nat → List Char → List Char
  | 0, t => t
  | fuel + 1, t =>
    match t with
    | [] => []
    | c :: cs =>
      if key ≠ [] ∧ key.isPrefixOf (c :: cs) then
        val ++ replGo key val fuel ((c :: cs).drop key.length)
      else
        c :: replGo key val fuel cs

/-- Python `str.replace` on character lists. -/
def replList (key val t : List Char) : List Char :=
  replGo key val t.length t

/-- `str.replace` lifted to strings. -/
def pyReplace (key val s : String) : String :=
  String.mk (replList key.data val.data s.data)

/-- Python `str.strip`: drop leading and trailing whitespace. -/
def pyStrip (s : String) : String :=
  String.mk (((s.data.dropWhile Char.isWhitespace).reverse.dropWhile
    Char.isWhitespace).reverse)

/-- The filename sanitisation of the delivery number:
`str(dn).strip().replace("/","_").replace("//","_")`.  The second
`.replace` is written `.replace("//"."_")` in the source, a Python
SyntaxError; the comma is restored here, matching the evident intent
(the call is a no-op anyway once every `/` is already replaced). -/
def sanitizeDn (v : Val) : String :=
  pyReplace ("//") ("_") (pyReplace ("/") ("_") (pyStrip v.pyStr))

/-- The path of the document written for a row:
`os.path.join(OUTPUT_FOLDER, "BOL_" + dn + ".docx")`. -/
def outputPath (l : LtlRow) : String :=
  ("BOL_created/BOL_") ++ sanitizeDn l.dn ++ (".docx")

/-- `os.path.basename`: the part of a path after its last slash. -/
def baseName (s : String) : String :=
  String.mk ((s.data.reverse.takeWhile (fun c => c ≠ '/')).reverse)

/-- The token-to-value map built for a row, before Python `str()` is
applied, in the dictionary order of the source. -/
def replacementsV (r : BolRow) : List (String × Val) :=
  [ ("\x7b\x7bCARRIER NAME\x7d\x7d", r.2.carrierName)
  , ("\x7b\x7bCUSTOMER NAME\x7d\x7d", r.2.csv.shipToName)
  , ("\x7b\x7bHD_STORE\x7d\x7d",
      if (hdStore r.2.csv).notna then r.2.csv.shipToAddress1 else Val.str (""))
  , ("\x7b\x7bADRESS\x7d\x7d", shipToAddressEff r.2.csv)
  , ("\x7b\x7bCITY\x7d\x7d", r.2.csv.shipToCity)
  , ("\x7b\x7bSTATE\x7d\x7d", r.2.csv.shipToState)
  , ("\x7b\x7bZIP CODE\x7d\x7d", r.2.csv.shipToPostalCode)
  , ("\x7b\x7bPHONE NUMBER\x7d\x7d", r.2.csv.shipToDayPhone)
  , ("\x7b\x7bSCAC\x7d\x7d", r.2.scac)
  , ("\x7b\x7bPO_NUMBER\x7d\x7d", r.2.csv.poNumber)
  , ("\x7b\x7bNUM_PACKAGES\x7d\x7d", r.1.orderQuantity)
  , ("\x7b\x7bWEIGHT\x7d\x7d", r.1.grossWeight)
  , ("\x7b\x7bCUSTOMER ORDER\x7d\x7d", r.1.customerOrderNumber)
  , ("\x7b\x7bDELIVERY NUMBER\x7d\x7d", r.1.dn)
  , ("\x7b\x7bQTY_1\x7d\x7d", r.1.palletQty)
  , ("\x7b\x7bQTY_PACK\x7d\x7d", r.1.orderQuantity) ]

/-- The `replacements` dictionary of the source: each value rendered by
Python `str()` (applied by `fill_template` via `str(val)`). -/
def replacements (r : BolRow) : List (String × String) :=
  (replacementsV r).map (fun p => (p.1, p.2.pyStr))

/-- One text run of `fill_template`: apply each replacement in
dictionary order, guarded by the `if key in text` test of the source. -/
def fillText (reps : List (String × String)) (t : String) : String :=
  reps.foldl
    (fun acc kv => if hasOccur kv.1.data acc.data then pyReplace kv.1 kv.2 acc else acc)
    t

/-- A Word document as `fill_template` sees it: paragraph texts plus
tables of rows of cell texts. -/
structure Doc where
  paragraphs : List String
  tables : List (List (List String))
deriving DecidableEq, Repr

/-- `fill_template`: literal substitution of every replacement in every
paragraph and every table cell; the template itself is not mutated. -/
def fill_template (reps : List (String × String)) (doc : Doc) : Doc :=
  { paragraphs := doc.paragraphs.map (fillText reps)
    tables := doc.tables.map (fun t => t.map (fun row => row.map (fillText reps))) }

/-- The document produced for one joined row. -/
def fillDocOf (tmpl : Doc) (r : BolRow) : Doc :=
  fill_template (replacements r) tmpl

/-- `created_files`: the paths appended by the generation loop, one per
joined row, in row order. -/
def created_files (bol : List BolRow) : List String :=
  bol.map (fun r => outputPath r.1)

/-- The success banner `Created <n> BOLs!`. -/
def successMessage (n : Nat) : String :=
  ("Created ") ++ toString n ++ (" BOLs!")

/-- The file the disk holds at path `p` after the whole loop ran: the
fill of the last row that wrote to `p` (later rows overwrite earlier
ones). -/
def lastWrite (tmpl : Doc) (bol : List BolRow) (p : String) : Option Doc :=
  (bol.reverse.find? (fun r => decide (outputPath r.1 = p))).map (fillDocOf tmpl)

/-- The ZIP built after the loop: one entry per element of
`created_files` (duplicates included, as `ZipFile.write` permits),
named by basename and holding the file's on-disk content at zip time. -/
def zipEntries (tmpl : Doc) (bol : List BolRow) : List (String × Option Doc) :=
  (created_files bol).map (fun p => (baseName p, lastWrite tmpl bol p))

/-- The generation loop with an abstract per-row failure predicate:
each non-failing row writes its document to disk before the next row
runs; the first failing row raises, leaving earlier writes in place.
Returns the writes that happened, in order, and whether the loop
aborted. -/
def processRows (tmpl : Doc) (bol : List BolRow) (failing : BolRow → Bool) :
    List (String × Doc) × Bool :=
  match bol with
  | [] => ([], false)
  | r :: rs =>
    if failing r then ([], true)
    else
      let rest := processRows tmpl rs failing
      ((outputPath r.1, fillDocOf tmpl r) :: rest.1, rest.2)

/-- The user-visible outcome of a run: the success banner with the ZIP
offered for download, or the single error banner. -/
inductive Outcome where
  | ok (message : String) (zip : List (String × Option Doc))
  | err (message : String)
deriving DecidableEq, Repr

/-- A whole run under the top-level `try`/`except`: on any row failure
the single error banner is shown and no ZIP is built; otherwise the
success banner and the ZIP.  The second component is what the loop
left on disk in either case. -/
def runPipeline (tmpl : Doc) (bol : List BolRow) (failing : BolRow → Bool) :
    Outcome × List (String × Doc) :=
  let res := processRows tmpl bol failing
  if res.2 then (.err ("Error processing files"), res.1)
  else (.ok (successMessage (created_files bol).length) (zipEntries tmpl bol), res.1)

/-! Infrastructure for the round-trip property of `fill_template`:
token shapes, brace-free texts, and a grammar of well-formed template
texts (brace-free segments alternating with whole tokens). -/

/-- The opening brace character. -/
def lbrace : Char := Char.ofNat 123

/-- The closing brace character. -/
def rbrace : Char := Char.ofNat 125

/-- A text with no brace characters. -/
def braceFree (l : List Char) : Prop := ∀ c ∈ l, c ≠ lbrace ∧ c ≠ rbrace

instance : DecidablePred braceFree := fun l =>
  List.decidableBAll (fun c => c ≠ lbrace ∧ c ≠ rbrace) l

/-- A placeholder token: two opening braces, a non-empty brace-free
name, two closing braces. -/
def tokenShape (k : List Char) : Prop :=
  ∃ name, name ≠ [] ∧ braceFree name
    ∧ k = lbrace :: lbrace :: (name ++ [rbrace, rbrace])

/-- Boolean check for `tokenShape`. -/
def isTokenShapeB (k : List Char) : Bool :=
  match k with
  | c1 :: c2 :: rest =>
    decide (c1 = lbrace) && decide (c2 = lbrace)
      && decide (rest.take (rest.length - 2) ≠ [])
      && decide (rest.drop (rest.length - 2) = [rbrace, rbrace])
      && (rest.take (rest.length - 2)).all
          (fun c => decide (c ≠ lbrace) && decide (c ≠ rbrace))
  | _ => false

/-- The 16 template placeholders, in the dictionary order of the
source. -/
def tokenStrings : List String :=
  [ ("\x7b\x7bCARRIER NAME\x7d\x7d")
  , ("\x7b\x7bCUSTOMER NAME\x7d\x7d")
  , ("\x7b\x7bHD_STORE\x7d\x7d")
  , ("\x7b\x7bADRESS\x7d\x7d")
  , ("\x7b\x7bCITY\x7d\x7d")
  , ("\x7b\x7bSTATE\x7d\x7d")
  , ("\x7b\x7bZIP CODE\x7d\x7d")
  , ("\x7b\x7bPHONE NUMBER\x7d\x7d")
  , ("\x7b\x7bSCAC\x7d\x7d")
  , ("\x7b\x7bPO_NUMBER\x7d\x7d")
  , ("\x7b\x7bNUM_PACKAGES\x7d\x7d")
  , ("\x7b\x7bWEIGHT\x7d\x7d")
  , ("\x7b\x7bCUSTOMER ORDER\x7d\x7d")
  , ("\x7b\x7bDELIVERY NUMBER\x7d\x7d")
  , ("\x7b\x7bQTY_1\x7d\x7d")
  , ("\x7b\x7bQTY_PACK\x7d\x7d") ]

/-- Well-formed template texts over a set `S` of allowed tokens:
concatenations of non-brace characters and whole tokens from `S`. -/
inductive Clean (S : List Char → Prop) : List Char → Prop where
  | nil : Clean S []
  | chr {c : Char} {t : List Char} :
      c ≠ lbrace → c ≠ rbrace → Clean S t → Clean S (c :: t)
  | tok {k t : List Char} : S k → Clean S t → Clean S (k ++ t)

/-- Fuel-indexed checker producing `Clean` derivations: consume a
non-brace character, or an allowed token at a brace. -/
def cleanB (keys : List (List Char)) : Nat → List Char → Bool
  | _, [] => true
  | 0, _ :: _ => false
  | fuel + 1, c :: cs =>
    if decide (c ≠ lbrace) && decide (c ≠ rbrace) then cleanB keys fuel cs
    else
      match (keys.filter (fun k => !k.isEmpty)).find?
          (fun k => k.isPrefixOf (c :: cs)) with
      | some k => cleanB keys fuel ((c :: cs).drop k.length)
      | none => false

/-- A TokenMap with only the 16 known tokens whose CITY value smuggles
in another token. -/
def cexReps : List (String × String) :=
  tokenStrings.map (fun k =>
    (k, if k = ("\x7b\x7bCITY\x7d\x7d") then ("\x7b\x7bCARRIER NAME\x7d\x7d")
        else ("")))

/-- A one-paragraph document used to witness the round-trip result. -/
def c9Doc : Doc :=
  { paragraphs := [ ("Ship to \x7b\x7bCITY\x7d\x7d") ]
    tables := [] }

/-! Example inputs used by witnesses: a store-delivery order joined
with a matching shipment line under a one-row TN carrier guide. -/

/-- A carrier-guide row for origin TN, destination TN. -/
def exCarRaw : RawCarrierRow :=
  { originState := Val.str ("TN")
    storeCarrier := Val.str ("AACT")
    residentialCarrier := Val.str ("EXLA")
    destinationState := Val.str ("TN") }

/-- A CommerceHub row for a store delivery in Tennessee. -/
def exCsvStore : CsvRow :=
  { shipToName := Val.str ("Home Depot")
    shipToAddress1 := Val.str ("123 Main St Store #045")
    shipToAddress2 := Val.na
    shipToCity := Val.str ("Memphis")
    shipToState := Val.str ("TN")
    shipToPostalCode := Val.str ("38101")
    shipToDayPhone := Val.na
    poNumber := Val.int 1001 }

/-- The matching SAP LTL shipment line. -/
def exLtl : LtlRow :=
  { purchaseOrderNo := 1001
    orderQuantity := Val.int 3
    grossWeight := Val.int 500
    palletQty := Val.int 2
    dn := Val.str ("DN77")
    customerOrderNumber := Val.str ("CO9") }

/-- The joined row the pipeline produces from the example inputs. -/
def exRow : BolRow :=
  (exLtl,
    mkChub exCsvStore (Val.str ("AACT")) (Val.str ("EXLA"))
      (Val.str ("AAA Cooper Transportation")) (Val.str ("Estes Express Lines")))

/-- A carrier-guide row for origin TN whose residential carrier code
XPOL is outside the five-code dictionary. -/
def exCar10 : RawCarrierRow :=
  { originState := Val.str ("TN")
    storeCarrier := Val.str ("AACT")
    residentialCarrier := Val.str ("XPOL")
    destinationState := Val.str ("TN") }

/-- The cleaned form of `exCar10`. -/
def exClean10 : CarrierRow :=
  { storeCarrier := Val.str ("AACT")
    residentialCarrier := Val.str ("XPOL")
    destinationState := Val.str ("TN")
    shippingCodeStores := Val.str ("AAA Cooper Transportation")
    shippingCodeHomeDelivery := Val.na }

/-- A residential (no store marker) CommerceHub row in Tennessee. -/
def exCsv10 : CsvRow :=
  { shipToName := Val.str ("Jane Doe")
    shipToAddress1 := Val.str ("9 Elm St")
    shipToAddress2 := Val.na
    shipToCity := Val.str ("Nashville")
    shipToState := Val.str ("TN")
    shipToPostalCode := Val.str ("37201")
    shipToDayPhone := Val.na
    poNumber := Val.int 2002 }

/-- The matching shipment line for `exCsv10`. -/
def exLtl10 : LtlRow :=
  { purchaseOrderNo := 2002
    orderQuantity := Val.int 1
    grossWeight := Val.int 40
    palletQty := Val.int 1
    dn := Val.str ("DN9")
    customerOrderNumber := Val.na }

/-- A residential order whose destination state has no carrier-guide
row, so the left join leaves its carrier fields null. -/
def exCsv5 : CsvRow :=
  { shipToName := Val.str ("Bob Roe")
    shipToAddress1 := Val.str ("7 Pine St")
    shipToAddress2 := Val.na
    shipToCity := Val.str ("Boise")
    shipToState := Val.str ("ID")
    shipToPostalCode := Val.str ("83701")
    shipToDayPhone := Val.na
    poNumber := Val.int 3003 }

/-- The matching shipment line for `exCsv5`. -/
def exLtl5 : LtlRow :=
  { purchaseOrderNo := 3003
    orderQuantity := Val.int 2
    grossWeight := Val.int 80
    palletQty := Val.int 1
    dn := Val.str ("DN5")
    customerOrderNumber := Val.na }

/-- A tiny template: one paragraph and one one-cell table. -/
def exTemplate : Doc :=
  { paragraphs := [ ("City: \x7b\x7bCITY\x7d\x7d") ]
    tables := [ [ [ ("\x7b\x7bSCAC\x7d\x7d") ] ] ] }

/-- A second order row for the same purchase order, differing only in
the city, so its document differs from `exRow`'s. -/
def exCsvB : CsvRow :=
  { shipToName := Val.str ("Home Depot")
    shipToAddress1 := Val.str ("123 Main St Store #045")
    shipToAddress2 := Val.na
    shipToCity := Val.str ("Knoxville")
    shipToState := Val.str ("TN")
    shipToPostalCode := Val.str ("37901")
    shipToDayPhone := Val.na
    poNumber := Val.int 1001 }

/-- A joined row sharing `exRow`'s delivery number DN77 but carrying
different content. -/
def exRowB : BolRow :=
  (exLtl,
    mkChub exCsvB (Val.str ("AACT")) (Val.str ("EXLA"))
      (Val.str ("AAA Cooper Transportation")) (Val.str ("Estes Express Lines")))

/-- The residential example as a joined row, used as the failing row. -/
def exRow10 : BolRow :=
  (exLtl10,
    mkChub exCsv10 (Val.str ("AACT")) (Val.str ("XPOL"))
      (Val.str ("AAA Cooper Transportation")) Val.na)

/-- A failure predicate that trips on the second example row only. -/
def exFail : BolRow → Bool := fun r => decide (r.1.purchaseOrderNo = 2002)

/-- Every `df_chub` row is `mkChub` of some CSV row and carrier
fields. -/
theorem mem_df_chub_shape {csv : List CsvRow} {car : List CarrierRow} {x : ChubRow}
    (hx : x ∈ df_chub csv car) :
    ∃ o sc rc ss sh, x = mkChub o sc rc ss sh := by
  simp only [df_chub, List.mem_flatMap] at hx
  obtain ⟨o, -, hmem⟩ := hx
  cases h : carrierMatches car o with
  | nil =>
    rw [h] at hmem
    simp only [List.mem_singleton] at hmem
    exact ⟨o, _, _, _, _, hmem⟩
  | cons a as =>
    rw [h] at hmem
    simp only [List.mem_map] at hmem
    obtain ⟨c, -, hc⟩ := hmem
    exact ⟨o, _, _, _, _, hc.symm⟩

/-- The right component of every `df_BOL` row comes from `df_chub`. -/
theorem mem_df_BOL_right {ltl : List LtlRow} {chub : List ChubRow} {p : BolRow}
    (hp : p ∈ df_BOL ltl chub) : p.2 ∈ chub := by
  simp only [df_BOL, List.mem_flatMap, List.mem_map, List.mem_filter] at hp
  obtain ⟨l, -, c, hc, rfl⟩ := hp
  exact hc.1

/-- C2: for every joined row, the resolved SCAC and carrier name come
from the store-delivery carrier fields when the store identifier is
non-null and from the residential-delivery fields otherwise; exactly
one of the two variants contributes. -/
theorem C2_carrier_choice (ltl : List LtlRow) (csv : List CsvRow)
    (car : List CarrierRow) (p : BolRow)
    (hp : p ∈ df_BOL ltl (df_chub csv car)) :
    (p.2.scac = if (hdStore p.2.csv).notna then p.2.storeCarrier
      else p.2.residentialCarrier)
    ∧ (p.2.carrierName = if (hdStore p.2.csv).notna then p.2.shippingCodeStores
      else p.2.shippingCodeHomeDelivery)
    ∧ ((hdStore p.2.csv).notna = true →
        p.2.scac = p.2.storeCarrier ∧ p.2.carrierName = p.2.shippingCodeStores)
    ∧ ((hdStore p.2.csv).notna = false →
        p.2.scac = p.2.residentialCarrier
        ∧ p.2.carrierName = p.2.shippingCodeHomeDelivery) := by
  obtain ⟨o, sc, rc, ss, sh, h⟩ := mem_df_chub_shape (mem_df_BOL_right hp)
  rw [h]
  by_cases hb : (hdStore o).notna = true <;> simp [mkChub, hb]

/-- Witness for C2 at the example inputs: the store row resolves to the
store-delivery carrier fields. -/
theorem C2_carrier_choice_witness :
    exRow.2.scac = Val.str ("AACT")
    ∧ exRow.2.carrierName = Val.str ("AAA Cooper Transportation") := by
  have h := C2_carrier_choice [exLtl] [exCsvStore] (load_state_carrier [exCarRaw])
    exRow (by decide)
  have hs := h.2.2.1 (by decide)
  exact ⟨hs.1.trans (by decide), hs.2.trans (by decide)⟩

/-- A non-null store identifier forces the primary address line to be a
string (the regex matched it). -/
theorem hdStore_notna_str {r : CsvRow} (h : (hdStore r).notna = true) :
    ∃ s, r.shipToAddress1 = Val.str s := by
  cases hr : r.shipToAddress1 with
  | str s => exact ⟨s, rfl⟩
  | int n => rw [hdStore, hr] at h; simp [Val.notna] at h
  | na => rw [hdStore, hr] at h; simp [Val.notna] at h

/-- C4: the HD_STORE token renders as the primary address line when the
store identifier is non-null, and as the empty string otherwise. -/
theorem C4_hd_store_token (ltl : List LtlRow) (csv : List CsvRow)
    (car : List CarrierRow) (p : BolRow)
    (_hp : p ∈ df_BOL ltl (df_chub csv car)) :
    ((hdStore p.2.csv).notna = true →
      ∃ s, p.2.csv.shipToAddress1 = Val.str s
        ∧ List.lookup ("\x7b\x7bHD_STORE\x7d\x7d") (replacements p) = some s)
    ∧ ((hdStore p.2.csv).notna = false →
      List.lookup ("\x7b\x7bHD_STORE\x7d\x7d") (replacements p) = some ("")) := by
  constructor
  · intro h
    obtain ⟨s, hs⟩ := hdStore_notna_str h
    exact ⟨s, hs, by simp [replacements, replacementsV, List.lookup, h, hs, Val.pyStr]⟩
  · intro h
    simp [replacements, replacementsV, List.lookup, h, Val.pyStr]

/-- Witness for C4 at the example inputs: the store row renders
HD_STORE as its primary address line. -/
theorem C4_hd_store_token_witness :
    List.lookup ("\x7b\x7bHD_STORE\x7d\x7d") (replacements exRow)
      = some ("123 Main St Store #045") := by
  obtain ⟨s, hs, hl⟩ :=
    (C4_hd_store_token [exLtl] [exCsvStore] (load_state_carrier [exCarRaw])
      exRow (by decide)).1 (by decide)
  rw [show exRow.2.csv.shipToAddress1 = Val.str ("123 Main St Store #045") from rfl]
    at hs
  injection hs with h
  rw [← h] at hl
  exact hl

/-- C10: a carrier code outside the five mapped codes yields a null
derived carrier name while the resolved SCAC still carries the raw
code, so a joined row can pair a non-null SCAC with a null carrier
name. -/
theorem C10_unmapped_carrier :
    (∀ raws : List RawCarrierRow, ∀ r ∈ load_state_carrier raws,
      (∀ c, r.storeCarrier = Val.str c → codeMapping c = none →
        r.shippingCodeStores = Val.na)
      ∧ (∀ c, r.residentialCarrier = Val.str c → codeMapping c = none →
        r.shippingCodeHomeDelivery = Val.na))
    ∧ ((df_BOL [exLtl10] (df_chub [exCsv10] (load_state_carrier [exCar10]))).map
        (fun p => (p.2.scac, p.2.carrierName)) = [(Val.str ("XPOL"), Val.na)]) := by
  constructor
  · intro raws r hr
    simp only [load_state_carrier, List.mem_map] at hr
    obtain ⟨r0, -, rfl⟩ := hr
    constructor
    · intro c hc hmap
      simp only at hc
      simp [Val.mapCode, hc, hmap]
    · intro c hc hmap
      simp only at hc
      simp [Val.mapCode, hc, hmap]
  · decide

/-- Witness for C10: the cleaned example guide row has a null
residential carrier name. -/
theorem C10_unmapped_carrier_witness :
    exClean10.shippingCodeHomeDelivery = Val.na :=
  (C10_unmapped_carrier.1 [exCar10] exClean10 (by decide)).2 ("XPOL") rfl (by decide)

/-- Counterexample to C5 as stated: a joined row whose SCAC value is
null renders the SCAC token as the string `nan`, not as the empty
string (`row.get(col, "")` only defaults when the column is absent;
a present NaN flows into `str(val)`). -/
theorem C5_null_renders_nan :
    ((df_BOL [exLtl5] (df_chub [exCsv5] (load_state_carrier [exCarRaw]))).map
      (fun p => (p.2.scac, List.lookup ("\x7b\x7bSCAC\x7d\x7d") (replacements p))))
      = [(Val.na, some ("nan"))]
    ∧ (("nan") : String) ≠ ("") := by
  exact ⟨by decide, by decide⟩

/-- C5 amended: every token value renders by Python `str()` — strings
as themselves, integers in their natural form, and null (NaN) values
as the string `nan` rather than the empty string. -/
theorem C5_token_rendering (ltl : List LtlRow) (csv : List CsvRow)
    (car : List CarrierRow) (p : BolRow)
    (_hp : p ∈ df_BOL ltl (df_chub csv car))
    (k : String) (v : Val) (hk : (k, v) ∈ replacementsV p)
    (_hkn : k ≠ ("\x7b\x7bHD_STORE\x7d\x7d")) :
    (k, v.pyStr) ∈ replacements p
    ∧ (v = Val.na → v.pyStr = ("nan"))
    ∧ (∀ s, v = Val.str s → v.pyStr = s)
    ∧ (∀ n, v = Val.int n → v.pyStr = toString n) := by
  refine ⟨List.mem_map_of_mem _ hk, ?_, ?_, ?_⟩
  · rintro rfl; rfl
  · rintro s rfl; rfl
  · rintro n rfl; rfl

/-- Witness for C5 amended: the example store row's null phone number
renders as `nan`. -/
theorem C5_token_rendering_witness :
    ("\x7b\x7bPHONE NUMBER\x7d\x7d", ("nan")) ∈ replacements exRow :=
  (C5_token_rendering [exLtl] [exCsvStore] (load_state_carrier [exCarRaw]) exRow
    (by decide) ("\x7b\x7bPHONE NUMBER\x7d\x7d") Val.na (by decide) (by decide)).1

/-- Every successful extraction decomposes the address around the
marker, captures the maximal digit run there, and sits at the leftmost
position admitting at least three digits. -/
theorem extractStore_eq_some {l d : List Char} (h : extractStore l = some d) :
    ∃ a b, l = a ++ storeMarker ++ b
      ∧ d = b.takeWhile Char.isDigit
      ∧ 3 ≤ d.length
      ∧ ∀ a2 b2, l = a2 ++ storeMarker ++ b2 →
          3 ≤ (b2.takeWhile Char.isDigit).length → a.length ≤ a2.length := by
  induction l with
  | nil => simp [extractStore] at h
  | cons c cs ih =>
    rw [extractStore] at h
    by_cases hpre : storeMarker.isPrefixOf (c :: cs) = true
    · rw [if_pos hpre] at h
      obtain ⟨t, ht⟩ := List.isPrefixOf_iff_prefix.mp hpre
      by_cases hlen :
          3 ≤ (((c :: cs).drop storeMarker.length).takeWhile Char.isDigit).length
      · rw [if_pos hlen] at h
        injection h with hd
        refine ⟨[], (c :: cs).drop storeMarker.length, ?_, hd.symm, ?_, ?_⟩
        · rw [← ht]; simp [List.drop_left]
        · rw [hd] at hlen; exact hlen
        · intro a2 b2 _ _; simp
      · rw [if_neg hlen] at h
        obtain ⟨a, b, hab, hd, h3, hmin⟩ := ih h
        refine ⟨c :: a, b, by rw [hab]; rfl, hd, h3, ?_⟩
        intro a2 b2 he hdig
        cases a2 with
        | nil =>
          exfalso
          simp only [List.nil_append] at he
          have hb2 : (c :: cs).drop storeMarker.length = b2 := by
            rw [he, List.drop_left]
          rw [hb2] at hlen
          exact hlen hdig
        | cons x a2' =>
          have he' : cs = a2' ++ storeMarker ++ b2 := by
            have := congrArg List.tail he
            simpa using this
          simpa using Nat.succ_le_succ (hmin a2' b2 he' hdig)
    · rw [if_neg hpre] at h
      obtain ⟨a, b, hab, hd, h3, hmin⟩ := ih h
      refine ⟨c :: a, b, by rw [hab]; rfl, hd, h3, ?_⟩
      intro a2 b2 he hdig
      cases a2 with
      | nil =>
        exfalso
        simp only [List.nil_append] at he
        exact hpre (List.isPrefixOf_iff_prefix.mpr ⟨b2, he.symm⟩)
      | cons x a2' =>
        have he' : cs = a2' ++ storeMarker ++ b2 := by
          have := congrArg List.tail he
          simpa using this
        simpa using Nat.succ_le_succ (hmin a2' b2 he' hdig)

/-- The extraction succeeds exactly when some position carries the
marker followed by at least three digits. -/
theorem extractStore_isSome_iff (l : List Char) :
    (extractStore l).isSome = true ↔
      ∃ a b, l = a ++ storeMarker ++ b
        ∧ 3 ≤ (b.takeWhile Char.isDigit).length := by
  induction l with
  | nil =>
    simp only [extractStore, Option.isSome_none, Bool.false_eq_true, false_iff]
    rintro ⟨a, b, hab, -⟩
    have := congrArg List.length hab
    simp [storeMarker] at this
    omega
  | cons c cs ih =>
    rw [extractStore]
    by_cases hpre : storeMarker.isPrefixOf (c :: cs) = true
    · rw [if_pos hpre]
      obtain ⟨t, ht⟩ := List.isPrefixOf_iff_prefix.mp hpre
      by_cases hlen :
          3 ≤ (((c :: cs).drop storeMarker.length).takeWhile Char.isDigit).length
      · rw [if_pos hlen]
        simp only [Option.isSome_some, true_iff]
        exact ⟨[], (c :: cs).drop storeMarker.length,
          by rw [← ht]; simp [List.drop_left], hlen⟩
      · rw [if_neg hlen, ih]
        constructor
        · rintro ⟨a, b, hab, hdig⟩
          exact ⟨c :: a, b, by rw [hab]; rfl, hdig⟩
        · rintro ⟨a, b, hab, hdig⟩
          cases a with
          | nil =>
            exfalso
            simp only [List.nil_append] at hab
            have hb : (c :: cs).drop storeMarker.length = b := by
              rw [hab, List.drop_left]
            rw [hb] at hlen
            exact hlen hdig
          | cons x a' =>
            have hab' : cs = a' ++ storeMarker ++ b := by
              have := congrArg List.tail hab
              simpa using this
            exact ⟨a', b, hab', hdig⟩
    · rw [if_neg hpre, ih]
      constructor
      · rintro ⟨a, b, hab, hdig⟩
        exact ⟨c :: a, b, by rw [hab]; rfl, hdig⟩
      · rintro ⟨a, b, hab, hdig⟩
        cases a with
        | nil =>
          exfalso
          simp only [List.nil_append] at hab
          exact hpre (List.isPrefixOf_iff_prefix.mpr ⟨b, hab.symm⟩)
        | cons x a' =>
          have hab' : cs = a' ++ storeMarker ++ b := by
            have := congrArg List.tail hab
            simpa using this
          exact ⟨a', b, hab', hdig⟩

/-- C3: the store identifier is non-null exactly when the primary
address line is a string containing `Store #` followed by at least
three digits, and it then equals the digit run at the leftmost such
position. -/
theorem C3_store_identifier (r : CsvRow) :
    ((hdStore r).notna = true ↔
      ∃ s a b, r.shipToAddress1 = Val.str s
        ∧ s.data = a ++ storeMarker ++ b
        ∧ 3 ≤ (b.takeWhile Char.isDigit).length)
    ∧ (∀ d, hdStore r = Val.str d →
      ∃ s a b, r.shipToAddress1 = Val.str s
        ∧ s.data = a ++ storeMarker ++ b
        ∧ d.data = b.takeWhile Char.isDigit
        ∧ 3 ≤ d.data.length
        ∧ ∀ a2 b2, s.data = a2 ++ storeMarker ++ b2 →
            3 ≤ (b2.takeWhile Char.isDigit).length → a.length ≤ a2.length) := by
  cases haddr : r.shipToAddress1 with
  | str s =>
    cases hext : extractStore s.data with
    | some dd =>
      obtain ⟨a, b, hab, hd, h3, hmin⟩ := extractStore_eq_some hext
      have hval : hdStore r = Val.str (String.mk dd) := by
        simp [hdStore, haddr, hext]
      constructor
      · refine Iff.intro (fun _ => ⟨s, a, b, rfl, hab, ?_⟩) (fun _ => ?_)
        · rw [hd] at h3; exact h3
        · rw [hval]; rfl
      · intro d hdval
        rw [hval] at hdval
        injection hdval with hmk
        refine ⟨s, a, b, rfl, hab, ?_, ?_, hmin⟩
        · rw [← hmk]; exact hd
        · rw [← hmk]; exact h3
    | none =>
      have hval : hdStore r = Val.na := by
        simp [hdStore, haddr, hext]
      constructor
      · rw [hval]
        simp only [Val.notna, Bool.false_eq_true, false_iff]
        rintro ⟨s', a, b, hs', hab, hdig⟩
        injection hs' with hss
        rw [← hss] at hab
        have hsome : (extractStore s.data).isSome = true :=
          (extractStore_isSome_iff s.data).mpr ⟨a, b, hab, hdig⟩
        rw [hext] at hsome
        exact absurd hsome (by simp)
      · intro d hdval
        rw [hval] at hdval
        exact absurd hdval (by simp)
  | int n =>
    have hval : hdStore r = Val.na := by simp [hdStore, haddr]
    constructor
    · rw [hval]
      simp only [Val.notna, Bool.false_eq_true, false_iff]
      rintro ⟨s', -, -, hs', -⟩
      exact absurd hs' (by simp)
    · intro d hdval
      rw [hval] at hdval
      exact absurd hdval (by simp)
  | na =>
    have hval : hdStore r = Val.na := by simp [hdStore, haddr]
    constructor
    · rw [hval]
      simp only [Val.notna, Bool.false_eq_true, false_iff]
      rintro ⟨s', -, -, hs', -⟩
      exact absurd hs' (by simp)
    · intro d hdval
      rw [hval] at hdval
      exact absurd hdval (by simp)

/-- Witness for C3: the example store address has a non-null store
identifier. -/
theorem C3_store_identifier_witness : (hdStore exCsvStore).notna = true :=
  (C3_store_identifier exCsvStore).1.mpr
    ⟨"123 Main St Store #045", ("123 Main St ").data, ("045").data,
      rfl, by decide, by decide⟩

/-- When every order row matches at most one carrier-guide row, the
left join neither drops nor duplicates rows: `df_chub` carries exactly
the order numbers of the CSV, in order. -/
theorem df_chub_poNumbers {csv : List CsvRow} {car : List CarrierRow}
    (h : ∀ o ∈ csv, (carrierMatches car o).length ≤ 1) :
    (df_chub csv car).map (fun c => c.csv.poNumber)
      = csv.map (fun o => o.poNumber) := by
  induction csv with
  | nil => rfl
  | cons o os ih =>
    have hos := ih (fun o' ho' => h o' (List.mem_cons_of_mem _ ho'))
    have ho := h o (List.mem_cons_self _ _)
    simp only [df_chub, List.flatMap_cons] at hos ⊢
    cases hm : carrierMatches car o with
    | nil =>
      simpa [mkChub] using hos
    | cons c cs =>
      cases cs with
      | nil =>
        simpa [mkChub] using hos
      | cons c2 cs2 =>
        exfalso
        rw [hm] at ho
        simp at ho

/-- C1: under per-destination-unique carrier-guide rows, the number of
generated documents — and the count in the success banner — equals the
row count of the inner join of the shipment table and the order table
on the order-number key. -/
theorem C1_document_count (ltl : List LtlRow) (csv : List CsvRow)
    (car : List CarrierRow)
    (h : ∀ o ∈ csv, (carrierMatches car o).length ≤ 1) :
    (created_files (df_BOL ltl (df_chub csv car))).length
      = spec_innerJoinCount ltl csv
    ∧ successMessage (created_files (df_BOL ltl (df_chub csv car))).length
      = ("Created ") ++ toString (spec_innerJoinCount ltl csv) ++ (" BOLs!") := by
  have hpo := df_chub_poNumbers h
  have hlen : (df_BOL ltl (df_chub csv car)).length = spec_innerJoinCount ltl csv := by
    simp only [df_BOL, spec_innerJoinCount, List.length_flatMap]
    congr 1
    apply List.map_eq_map_iff.mpr
    intro l _
    simp only [Function.comp_apply, List.length_map,
      ← List.countP_eq_length_filter]
    calc
      (df_chub csv car).countP
          (fun c => Val.keyEq (Val.int l.purchaseOrderNo) c.csv.poNumber)
        = ((df_chub csv car).map (fun c => c.csv.poNumber)).countP
            (fun v => Val.keyEq (Val.int l.purchaseOrderNo) v) := by
          rw [List.countP_map]; rfl
      _ = (csv.map (fun o => o.poNumber)).countP
            (fun v => Val.keyEq (Val.int l.purchaseOrderNo) v) := by rw [hpo]
      _ = csv.countP (fun o => Val.keyEq (Val.int l.purchaseOrderNo) o.poNumber) := by
          rw [List.countP_map]; rfl
  refine ⟨?_, ?_⟩
  · rw [created_files, List.length_map, hlen]
  · rw [created_files, List.length_map, hlen, successMessage]

/-- The generation loop writes exactly the rows before the first
failure and aborts exactly when some row fails. -/
theorem processRows_eq (tmpl : Doc) (bol : List BolRow) (failing : BolRow → Bool) :
    processRows tmpl bol failing
      = ((bol.takeWhile (fun r => !failing r)).map
          (fun r => (outputPath r.1, fillDocOf tmpl r)),
         bol.any failing) := by
  induction bol with
  | nil => rfl
  | cons r rs ih =>
    rw [processRows]
    by_cases hf : failing r = true
    · simp [hf]
    · simp only [Bool.not_eq_true] at hf
      simp [hf, ih]

/-- Counterexample to C6 as stated: with two joined rows where only
the second fails, the run reports the error banner yet one document —
written before the failure — remains on disk. -/
theorem C6_partial_files_remain :
    (runPipeline exTemplate [exRow, exRow10] exFail).1
      = Outcome.err ("Error processing files")
    ∧ ((runPipeline exTemplate [exRow, exRow10] exFail).2).length = 1 := by
  exact ⟨by decide, by decide⟩

/-- C6 amended: if any row fails, the run reports the single error
banner and builds no archive, but the documents of the rows before the
first failing row remain on disk. -/
theorem C6_abort_behavior (tmpl : Doc) (bol : List BolRow)
    (failing : BolRow → Bool) (h : ∃ r ∈ bol, failing r = true) :
    (runPipeline tmpl bol failing).1 = Outcome.err ("Error processing files")
    ∧ (runPipeline tmpl bol failing).2
      = (bol.takeWhile (fun r => !failing r)).map
          (fun r => (outputPath r.1, fillDocOf tmpl r)) := by
  have hany : bol.any failing = true := List.any_eq_true.mpr h
  simp [runPipeline, processRows_eq, hany]

/-- Witness for C6 amended at the example rows: the error banner is
shown and exactly the first row's document remains. -/
theorem C6_abort_behavior_witness :
    (runPipeline exTemplate [exRow, exRow10] exFail).1
      = Outcome.err ("Error processing files")
    ∧ (runPipeline exTemplate [exRow, exRow10] exFail).2
      = [(outputPath exRow.1, fillDocOf exTemplate exRow)] := by
  have h := C6_abort_behavior exTemplate [exRow, exRow10] exFail
    ⟨exRow10, by decide, by decide⟩
  exact ⟨h.1, h.2.trans (by decide)⟩

/-- Counterexample to C7 as stated: two rows sharing delivery number
DN77 put two entries named `BOL_DN77.docx` into the archive, not
exactly one; both hold the later row's content, and the later write
overwrote the earlier file on disk. -/
theorem C7_two_entries :
    ((zipEntries exTemplate [exRow, exRowB]).countP
      (fun e => e.1 = ("BOL_DN77.docx"))) = 2
    ∧ (zipEntries exTemplate [exRow, exRowB]).length = 2
    ∧ lastWrite exTemplate [exRow, exRowB] (outputPath exRow.1)
      = some (fillDocOf exTemplate exRowB)
    ∧ fillDocOf exTemplate exRow ≠ fillDocOf exTemplate exRowB := by
  exact ⟨by decide, by decide, by decide, by decide⟩

/-- C7 amended: when two joined rows write the same path, the second
silently overwrites the first on disk and the archive receives two
entries with that basename, both holding the later row's document. -/
theorem C7_duplicate_dn_zip (tmpl : Doc) (r1 r2 : BolRow)
    (h : outputPath r1.1 = outputPath r2.1) :
    zipEntries tmpl [r1, r2]
      = [(baseName (outputPath r1.1), some (fillDocOf tmpl r2)),
         (baseName (outputPath r2.1), some (fillDocOf tmpl r2))]
    ∧ lastWrite tmpl [r1, r2] (outputPath r1.1) = some (fillDocOf tmpl r2) := by
  constructor
  · simp [zipEntries, created_files, lastWrite, h]
  · simp [lastWrite, h]

/-- Witness for C7 amended at the example rows. -/
theorem C7_duplicate_dn_zip_witness :
    zipEntries exTemplate [exRow, exRowB]
      = [(("BOL_DN77.docx"), some (fillDocOf exTemplate exRowB)),
         (("BOL_DN77.docx"), some (fillDocOf exTemplate exRowB))] :=
  ((C7_duplicate_dn_zip exTemplate exRow exRowB rfl).1).trans (by decide)

/-- A single-character key whose replacement value avoids it leaves no
occurrence of that character behind. -/
theorem replGo_single_not_mem {k : Char} {val : List Char} (hval : k ∉ val) :
    ∀ fuel t, List.length t ≤ fuel → k ∉ replGo [k] val fuel t := by
  intro fuel
  induction fuel with
  | zero =>
    intro t ht
    rw [List.length_eq_zero.mp (Nat.le_zero.mp ht)]
    simp [replGo]
  | succ n ih =>
    intro t ht
    cases t with
    | nil => simp [replGo]
    | cons c cs =>
      rw [replGo]
      by_cases hc : [k].isPrefixOf (c :: cs) = true
      · rw [if_pos ⟨by simp, hc⟩]
        intro hmem
        rcases List.mem_append.mp hmem with hv | hr
        · exact hval hv
        · exact ih ((c :: cs).drop 1) (by simp at ht ⊢; omega) hr
      · rw [if_neg (fun hand => hc hand.2)]
        intro hmem
        rcases List.mem_cons.mp hmem with hv | hr
        · apply hc
          rw [hv]
          simp [List.isPrefixOf]
        · exact ih cs (by simp at ht ⊢; omega) hr

/-- `replList` form of `replGo_single_not_mem`. -/
theorem replList_single_not_mem {k : Char} {val : List Char} (hval : k ∉ val) :
    ∀ t, k ∉ replList [k] val t :=
  fun t => replGo_single_not_mem hval t.length t (Nat.le_refl _)

/-- A key starting with a character absent from the text never fires:
the replacement is the identity there, whatever the fuel. -/
theorem replGo_id_of_head_not_mem {k : Char} {key val : List Char}
    (hk : key.head? = some k) :
    ∀ fuel t, k ∉ t → replGo key val fuel t = t := by
  intro fuel
  induction fuel with
  | zero => intro t _; rfl
  | succ n ih =>
    intro t hmem
    cases t with
    | nil => rfl
    | cons c cs =>
      have hne : k ≠ c := fun he => hmem (he ▸ List.mem_cons_self c cs)
      cases key with
      | nil => simp at hk
      | cons a as =>
        have ha : a = k := by simpa using hk
        rw [replGo, if_neg]
        · rw [ih cs (fun hx => hmem (List.mem_cons_of_mem c hx))]
        · rintro ⟨-, hpre⟩
          rw [List.isPrefixOf] at hpre
          simp only [Bool.and_eq_true, beq_iff_eq] at hpre
          exact hne (ha ▸ hpre.1)

/-- `replList` form of `replGo_id_of_head_not_mem`. -/
theorem replList_id_of_head_not_mem {k : Char} {key val : List Char}
    (hk : key.head? = some k) :
    ∀ t, k ∉ t → replList key val t = t :=
  fun t ht => replGo_id_of_head_not_mem hk t.length t ht

/-- C8 (intended behaviour of the source's broken line 132): the
document for a row is named `BOL_<sanitized delivery number>.docx`, and
sanitisation leaves no path separator in the delivery number. -/
theorem C8_output_naming (v : Val) (l : LtlRow) :
    ('/') ∉ (sanitizeDn v).data
    ∧ outputPath l = ("BOL_created/BOL_") ++ sanitizeDn l.dn ++ (".docx")
    ∧ sanitizeDn (Val.str ("  DN/7a ")) = ("DN_7a") := by
  refine ⟨?_, rfl, by decide⟩
  have h1 : ('/') ∉ (pyReplace ("/") ("_") (pyStrip v.pyStr)).data :=
    replList_single_not_mem (by decide) _
  have h2 : replList (("//").data) (("_").data)
      ((pyReplace ("/") ("_") (pyStrip v.pyStr)).data)
      = (pyReplace ("/") ("_") (pyStrip v.pyStr)).data :=
    replList_id_of_head_not_mem (by decide) _ h1
  rw [sanitizeDn, pyReplace, h2]
  exact h1

/-- Witness for C1 at the example inputs: one shipment line matching
one order row yields one document and the banner reports one. -/
theorem C1_document_count_witness :
    (created_files (df_BOL [exLtl] (df_chub [exCsvStore]
      (load_state_carrier [exCarRaw])))).length
      = spec_innerJoinCount [exLtl] [exCsvStore] :=
  (C1_document_count [exLtl] [exCsvStore] (load_state_carrier [exCarRaw])
    (by decide)).1

/-- Replacement of the empty text is empty at any fuel. -/
theorem replGo_nil (key val : List Char) (fuel : Nat) :
    replGo key val fuel [] = [] := by
  cases fuel <;> rfl

/-- When the key is not a prefix of the text, one character is copied. -/
theorem replGo_step_no_match {key val : List Char} {c : Char} {cs : List Char}
    (h : ¬ key <+: (c :: cs)) (fuel : Nat) :
    replGo key val (fuel + 1) (c :: cs) = c :: replGo key val fuel cs := by
  rw [replGo, if_neg]
  rintro ⟨-, hpre⟩
  exact h (List.isPrefixOf_iff_prefix.mp hpre)

/-- A key opening with a brace cannot fire on a non-brace character. -/
theorem replGo_chr_step {key val k' : List Char} (hk : key = lbrace :: k')
    {c : Char} (hc : c ≠ lbrace) (cs : List Char) (fuel : Nat) :
    replGo key val (fuel + 1) (c :: cs) = c :: replGo key val fuel cs := by
  apply replGo_step_no_match
  intro hp
  rw [hk] at hp
  rcases List.cons_prefix_cons.mp hp with ⟨he, -⟩
  exact hc he.symm

/-- A key opening with a brace copies a whole brace-free segment. -/
theorem replGo_seg_step {key val k' : List Char} (hk : key = lbrace :: k') :
    ∀ seg : List Char, braceFree seg → ∀ fuel rest,
      replGo key val (fuel + seg.length) (seg ++ rest)
        = seg ++ replGo key val fuel rest := by
  intro seg
  induction seg with
  | nil => intro _ fuel rest; rfl
  | cons c seg' ih =>
    intro hbf fuel rest
    have hc : c ≠ lbrace := (hbf c (List.mem_cons_self _ _)).1
    show replGo key val ((fuel + seg'.length) + 1) (c :: (seg' ++ rest)) = _
    rw [replGo_chr_step hk hc,
      ih (fun d hd => hbf d (List.mem_cons_of_mem _ hd)) fuel rest]
    rfl

/-- A non-empty key fires on a text it opens, emitting the value. -/
theorem replGo_key_step {key val : List Char} (hne : key ≠ []) (fuel : Nat)
    (rest : List Char) :
    replGo key val (fuel + 1) (key ++ rest) = val ++ replGo key val fuel rest := by
  cases key with
  | nil => exact absurd rfl hne
  | cons a as =>
    rw [List.cons_append, replGo, if_pos]
    · rw [show a :: (as ++ rest) = (a :: as) ++ rest from rfl, List.drop_left]
    · exact ⟨by simp, List.isPrefixOf_iff_prefix.mpr ⟨rest, by simp⟩⟩

/-- A key with no occurrence in the text leaves it untouched. -/
theorem replGo_id_of_not_occur {key val : List Char} :
    ∀ fuel t, hasOccur key t = false → replGo key val fuel t = t := by
  intro fuel
  induction fuel with
  | zero => intro t _; rfl
  | succ f ih =>
    intro t h
    cases t with
    | nil => rfl
    | cons c cs =>
      rw [hasOccur, Bool.or_eq_false_iff] at h
      rw [replGo, if_neg, ih cs h.2]
      rintro ⟨-, hp⟩
      rw [h.1] at hp
      exact Bool.false_ne_true hp

/-- `Clean` is monotone in the allowed token set. -/
theorem Clean.mono {S T : List Char → Prop} (h : ∀ x, S x → T x) {t : List Char} :
    Clean S t → Clean T t := by
  intro hc
  induction hc with
  | nil => exact .nil
  | chr h1 h2 _ ih => exact .chr h1 h2 ih
  | tok hm _ ih => exact .tok (h _ hm) ih

/-- Prepending a brace-free text preserves `Clean`. -/
theorem Clean.prepend {S : List Char → Prop} {v t : List Char}
    (hv : braceFree v) (h : Clean S t) : Clean S (v ++ t) := by
  induction v with
  | nil => simpa using h
  | cons c v' ih =>
    exact .chr (hv c (List.mem_cons_self _ _)).1 (hv c (List.mem_cons_self _ _)).2
      (ih (fun d hd => hv d (List.mem_cons_of_mem _ hd)))

/-- A text clean over the empty token set is brace-free. -/
theorem braceFree_of_clean_false {t : List Char}
    (h : Clean (fun _ => False) t) : braceFree t := by
  induction h with
  | nil => intro c hc; exact absurd hc (List.not_mem_nil c)
  | chr h1 h2 _ ih =>
    intro c hc
    rcases List.mem_cons.mp hc with rfl | hm
    · exact ⟨h1, h2⟩
    · exact ih c hm
  | tok hm _ _ => exact hm.elim

/-- Any character of an occurring key occurs in the text. -/
theorem mem_of_hasOccur {key t : List Char} (h : hasOccur key t = true) :
    ∀ c ∈ key, c ∈ t := by
  induction t with
  | nil =>
    intro c hc
    rw [hasOccur] at h
    have : key = [] := by simpa using h
    rw [this] at hc
    exact absurd hc (List.not_mem_nil c)
  | cons d ds ih =>
    intro c hc
    rw [hasOccur, Bool.or_eq_true] at h
    rcases h with hp | ho
    · obtain ⟨u, hu⟩ := List.isPrefixOf_iff_prefix.mp hp
      rw [← hu]
      exact List.mem_append_left _ hc
    · exact List.mem_cons_of_mem _ (ih ho c hc)

/-- No token occurs in a brace-free text. -/
theorem no_token_occur_of_braceFree {t k : List Char}
    (hbf : braceFree t) (hk : tokenShape k) : hasOccur k t = false := by
  by_contra h
  rw [Bool.not_eq_false] at h
  obtain ⟨n, -, -, rfl⟩ := hk
  have := mem_of_hasOccur h lbrace (List.mem_cons_self _ _)
  exact (hbf lbrace this).1 rfl

/-- Soundness of the boolean token-shape check. -/
theorem tokenShape_of_B {k : List Char} (h : isTokenShapeB k = true) :
    tokenShape k := by
  cases k with
  | nil => simp [isTokenShapeB] at h
  | cons c1 k1 =>
    cases k1 with
    | nil => simp [isTokenShapeB] at h
    | cons c2 rest =>
      simp only [isTokenShapeB, Bool.and_eq_true, decide_eq_true_eq,
        List.all_eq_true] at h
      obtain ⟨⟨⟨⟨h1, h2⟩, h3⟩, h4⟩, h5⟩ := h
      refine ⟨rest.take (rest.length - 2), h3, ?_, ?_⟩
      · intro c hc
        have := h5 c hc
        simpa using this
      · rw [h1, h2]
        have : rest = rest.take (rest.length - 2) ++ [rbrace, rbrace] := by
          rw [← h4, List.take_append_drop]
        rw [← this]

/-- Two brace-free names followed by a closing brace align only when
they are equal. -/
theorem name_eq_of_align :
    ∀ n1 n2 s1 s2 : List Char, braceFree n1 → braceFree n2 →
      (n1 ++ rbrace :: s1) <+: (n2 ++ rbrace :: s2) → n1 = n2 := by
  intro n1
  induction n1 with
  | nil =>
    intro n2 s1 s2 _ h2 hp
    cases n2 with
    | nil => rfl
    | cons c n2' =>
      exfalso
      simp only [List.nil_append, List.cons_append] at hp
      rcases List.cons_prefix_cons.mp hp with ⟨he, -⟩
      exact (h2 c (List.mem_cons_self _ _)).2 he.symm
  | cons c1 n1' ih =>
    intro n2 s1 s2 h1 h2 hp
    cases n2 with
    | nil =>
      exfalso
      simp only [List.cons_append, List.nil_append] at hp
      rcases List.cons_prefix_cons.mp hp with ⟨he, -⟩
      exact (h1 c1 (List.mem_cons_self _ _)).2 he
    | cons c2 n2' =>
      simp only [List.cons_append] at hp
      rcases List.cons_prefix_cons.mp hp with ⟨he, hp'⟩
      rw [he, ih n2' s1 s2 (fun d hd => h1 d (List.mem_cons_of_mem _ hd))
        (fun d hd => h2 d (List.mem_cons_of_mem _ hd)) hp']

/-- A token is never a prefix of a different token followed by
anything. -/
theorem token_mismatch {k t : List Char} (hk : tokenShape k)
    (ht : tokenShape t) (hne : t ≠ k) (rest : List Char) :
    ¬ k <+: (t ++ rest) := by
  obtain ⟨n1, -, hbf1, hkeq⟩ := hk
  obtain ⟨n2, -, hbf2, hteq⟩ := ht
  intro hp
  rw [hkeq, hteq] at hp
  simp only [List.cons_append, List.append_assoc, List.cons_append,
    List.nil_append] at hp
  rcases List.cons_prefix_cons.mp hp with ⟨-, hp1⟩
  rcases List.cons_prefix_cons.mp hp1 with ⟨-, hp2⟩
  have heq : n1 = n2 := name_eq_of_align n1 n2 _ _ hbf1 hbf2 hp2
  exact hne (by rw [hteq, hkeq, heq])

/-- Scanning a different token copies it whole. -/
theorem replGo_token_skip {key val t : List Char} (hk : tokenShape key)
    (ht : tokenShape t) (hne : t ≠ key) (fuel : Nat) (rest : List Char) :
    replGo key val (fuel + t.length) (t ++ rest)
      = t ++ replGo key val fuel rest := by
  have hnp := token_mismatch hk ht hne rest
  obtain ⟨n1, -, -, hkeq⟩ := hk
  obtain ⟨n2, hn2, hbf2, hteq⟩ := ht
  rw [hteq] at hnp ⊢
  have hlen : (lbrace :: lbrace :: (n2 ++ [rbrace, rbrace])).length
      = n2.length + 4 := by simp
  rw [hlen]
  have htext : (lbrace :: lbrace :: (n2 ++ [rbrace, rbrace])) ++ rest
      = lbrace :: lbrace :: (n2 ++ (rbrace :: rbrace :: rest)) := by simp
  rw [htext]
  rw [htext] at hnp
  have h2 : ¬ key <+: (lbrace :: (n2 ++ (rbrace :: rbrace :: rest))) := by
    intro hp
    rw [hkeq] at hp
    rcases List.cons_prefix_cons.mp hp with ⟨-, hp1⟩
    cases n2 with
    | nil => exact hn2 rfl
    | cons c n2' =>
      rcases List.cons_prefix_cons.mp hp1 with ⟨he, -⟩
      exact (hbf2 c (List.mem_cons_self _ _)).1 he.symm
  rw [show fuel + (n2.length + 4) = (((fuel + 2) + n2.length) + 1) + 1 from by
    omega]
  rw [replGo_step_no_match hnp, replGo_step_no_match h2]
  rw [replGo_seg_step hkeq n2 hbf2 (fuel + 2) (rbrace :: rbrace :: rest)]
  rw [show fuel + 2 = (fuel + 1) + 1 from rfl]
  rw [replGo_chr_step hkeq (by decide) _ (fuel + 1)]
  rw [replGo_chr_step hkeq (by decide) _ fuel]
  simp

/-- Core preservation: replacing one well-shaped token with a
brace-free value turns a text clean over `S` into a text clean over
`S` minus that token. -/
theorem replGo_clean {key val : List Char} (hk : tokenShape key)
    (hv : braceFree val) {S : List Char → Prop}
    (hS : ∀ x, S x → tokenShape x) :
    ∀ fuel t, t.length ≤ fuel → Clean S t →
      Clean (fun x => S x ∧ x ≠ key) (replGo key val fuel t) := by
  intro fuel
  induction fuel using Nat.strong_induction_on with
  | _ fuel ih =>
    intro t hlen hcl
    cases hcl with
    | nil =>
      rw [replGo_nil]
      exact .nil
    | chr hc1 hc2 hrest =>
      cases fuel with
      | zero => simp at hlen
      | succ f =>
        obtain ⟨k', hk'⟩ : ∃ k', key = lbrace :: k' := by
          obtain ⟨n, -, -, he⟩ := hk
          exact ⟨_, he⟩
        rw [replGo_chr_step hk' hc1 _ f]
        exact .chr hc1 hc2 (ih f (by omega) _ (by simpa using hlen) hrest)
    | tok hmem hrest =>
      rename_i kk t'
      have hkk : tokenShape kk := hS _ hmem
      by_cases heq : kk = key
      · subst heq
        obtain ⟨n, -, -, hkkeq⟩ := hkk
        cases fuel with
        | zero =>
          rw [hkkeq] at hlen
          simp at hlen
        | succ f =>
          have hne0 : kk ≠ [] := by rw [hkkeq]; simp
          rw [replGo_key_step hne0 f t']
          have hlt : t'.length ≤ f := by
            rw [hkkeq] at hlen
            simp at hlen
            omega
          exact Clean.prepend hv (ih f (Nat.lt_succ_self f) t' hlt hrest)
      · have hkklen : 1 ≤ kk.length := by
          obtain ⟨n, -, -, hkkeq⟩ := hkk
          rw [hkkeq]
          simp
        have hfuel : kk.length ≤ fuel := by
          rw [List.length_append] at hlen
          omega
        rw [show fuel = (fuel - kk.length) + kk.length from by omega]
        rw [replGo_token_skip hk hkk heq (fuel - kk.length) t']
        refine Clean.tok ⟨hmem, heq⟩ ?_
        refine ih (fuel - kk.length) (by omega) t' ?_ hrest
        rw [List.length_append] at hlen
        omega

/-- Soundness of the `cleanB` checker. -/
theorem cleanB_sound {keys : List (List Char)} :
    ∀ fuel t, cleanB keys fuel t = true → Clean (fun x => x ∈ keys) t := by
  intro fuel
  induction fuel with
  | zero =>
    intro t h
    cases t with
    | nil => exact .nil
    | cons c cs => simp [cleanB] at h
  | succ f ih =>
    intro t h
    cases t with
    | nil => exact .nil
    | cons c cs =>
      rw [cleanB] at h
      by_cases hc : (decide (c ≠ lbrace) && decide (c ≠ rbrace)) = true
      · rw [if_pos hc] at h
        simp only [Bool.and_eq_true, decide_eq_true_eq] at hc
        exact .chr hc.1 hc.2 (ih cs h)
      · rw [if_neg hc] at h
        cases hf : (keys.filter (fun k => !k.isEmpty)).find?
            (fun k => k.isPrefixOf (c :: cs)) with
        | none =>
          rw [hf] at h
          exact absurd h (by simp)
        | some k =>
          rw [hf] at h
          have hkmem : k ∈ keys :=
            (List.mem_filter.mp (List.mem_of_find?_eq_some hf)).1
          have hkpre : k.isPrefixOf (c :: cs) = true := by
            have hps := List.find?_some hf
            simpa using hps
          obtain ⟨u, hu⟩ := List.isPrefixOf_iff_prefix.mp hkpre
          have hdrop : (c :: cs).drop k.length = u := by
            rw [← hu, List.drop_left]
          have hcl := ih _ h
          rw [hdrop] at hcl
          have htok := Clean.tok (S := fun x => x ∈ keys) hkmem hcl
          rwa [hu] at htok

/-- `cleanB` at fuel equal to the text length certifies `Clean`. -/
theorem clean_of_cleanB {keys : List (List Char)} {t : List Char}
    (h : cleanB keys t.length t = true) : Clean (fun x => x ∈ keys) t :=
  cleanB_sound t.length t h

/-- Each of the 16 placeholders has the token shape. -/
theorem tokens_shape : ∀ k ∈ tokenStrings, tokenShape k.data := by
  intro k hk
  fin_cases hk <;> exact tokenShape_of_B (by decide)

/-- Folding all replacements over a clean text yields a text clean
over the tokens minus every processed key. -/
theorem foldl_clean :
    ∀ (reps : List (String × String)) (S : List Char → Prop),
      (∀ x, S x → tokenShape x) →
      (∀ p ∈ reps, tokenShape p.1.data ∧ braceFree p.2.data) →
      ∀ t : String, Clean S t.data →
        Clean (fun x => S x ∧ ∀ p ∈ reps, x ≠ p.1.data)
          ((fillText reps t).data) := by
  intro reps
  induction reps with
  | nil =>
    intro S _ _ t ht
    exact ht.mono (fun x hx => ⟨hx, fun p hp => absurd hp (List.not_mem_nil p)⟩)
  | cons q rest ih =>
    intro S hS hps t ht
    have hq := hps q (List.mem_cons_self _ _)
    have hrest := fun p hp => hps p (List.mem_cons_of_mem q hp)
    have hstep : Clean (fun x => S x ∧ x ≠ q.1.data)
        (((if hasOccur q.1.data t.data then pyReplace q.1 q.2 t else t) :
          String)).data := by
      by_cases hocc : hasOccur q.1.data t.data = true
      · rw [if_pos hocc]
        exact replGo_clean hq.1 hq.2 hS t.data.length t.data (Nat.le_refl _) ht
      · rw [if_neg hocc]
        have hocc' : hasOccur q.1.data t.data = false := by
          revert hocc
          cases hasOccur q.1.data t.data <;> simp
        have h0 := replGo_clean hq.1 hq.2 hS t.data.length t.data
          (Nat.le_refl _) ht
        rwa [replGo_id_of_not_occur t.data.length t.data hocc'] at h0
    have h2 := ih (fun x => S x ∧ x ≠ q.1.data) (fun x hx => hS x hx.1) hrest
      (if hasOccur q.1.data t.data then pyReplace q.1 q.2 t else t) hstep
    refine h2.mono (fun x hx => ⟨hx.1.1, fun p hp => ?_⟩)
    rcases List.mem_cons.mp hp with rfl | hm
    · exact hx.1.2
    · exact hx.2 p hm

/-- Counterexample to C9 as stated: with the 16 known tokens as keys
and a CITY value that itself contains the CARRIER NAME token, filling
the paragraph consisting of the CITY token leaves a token substring in
the output. -/
theorem C9_token_reintroduced :
    (cexReps.map Prod.fst = tokenStrings)
    ∧ hasOccur (("\x7b\x7bCARRIER NAME\x7d\x7d").data)
        ((fillText cexReps ("\x7b\x7bCITY\x7d\x7d")).data) = true := by
  exact ⟨by decide, by decide⟩

/-- C9 amended: when the TokenMap's keys are exactly the 16 known
tokens, every replacement value is brace-free, and every paragraph and
cell of the template is a concatenation of brace-free segments and
whole tokens, filling leaves no placeholder token substring in any
paragraph or table cell of the output document. -/
theorem C9_no_tokens_remain (reps : List (String × String)) (doc : Doc)
    (hkeys : reps.map Prod.fst = tokenStrings)
    (hvals : ∀ p ∈ reps, braceFree p.2.data)
    (hpars : ∀ t ∈ doc.paragraphs,
      Clean (fun x => x ∈ reps.map (fun p => p.1.data)) t.data)
    (hcells : ∀ tbl ∈ doc.tables, ∀ row ∈ tbl, ∀ cell ∈ row,
      Clean (fun x => x ∈ reps.map (fun p => p.1.data)) cell.data) :
    (∀ t ∈ (fill_template reps doc).paragraphs, ∀ k ∈ tokenStrings,
      hasOccur k.data t.data = false)
    ∧ (∀ tbl ∈ (fill_template reps doc).tables, ∀ row ∈ tbl, ∀ cell ∈ row,
      ∀ k ∈ tokenStrings, hasOccur k.data cell.data = false) := by
  have hshape : ∀ p ∈ reps, tokenShape p.1.data := by
    intro p hp
    have : p.1 ∈ tokenStrings := by
      rw [← hkeys]
      exact List.mem_map_of_mem Prod.fst hp
    exact tokens_shape p.1 this
  have hS : ∀ x, x ∈ reps.map (fun p => p.1.data) → tokenShape x := by
    intro x hx
    obtain ⟨p, hp, rfl⟩ := List.mem_map.mp hx
    exact hshape p hp
  have core : ∀ t : String,
      Clean (fun x => x ∈ reps.map (fun p => p.1.data)) t.data →
      ∀ k ∈ tokenStrings, hasOccur k.data ((fillText reps t).data) = false := by
    intro t ht k hk
    have h1 := foldl_clean reps (fun x => x ∈ reps.map (fun p => p.1.data)) hS
      (fun p hp => ⟨hshape p hp, hvals p hp⟩) t ht
    have h2 : Clean (fun _ => False) ((fillText reps t).data) := by
      refine h1.mono (fun x hx => ?_)
      obtain ⟨p, hp, rfl⟩ := List.mem_map.mp hx.1
      exact hx.2 p hp rfl
    exact no_token_occur_of_braceFree (braceFree_of_clean_false h2)
      (tokens_shape k hk)
  constructor
  · intro t ht k hk
    simp only [fill_template, List.mem_map] at ht
    obtain ⟨t0, ht0, rfl⟩ := ht
    exact core t0 (hpars t0 ht0) k hk
  · intro tbl htbl row hrow cell hcell k hk
    simp only [fill_template, List.mem_map] at htbl
    obtain ⟨tbl0, htbl0, rfl⟩ := htbl
    simp only [List.mem_map] at hrow
    obtain ⟨row0, hrow0, rfl⟩ := hrow
    simp only [List.mem_map] at hcell
    obtain ⟨cell0, hcell0, rfl⟩ := hcell
    exact core cell0 (hcells tbl0 htbl0 row0 hrow0 cell0 hcell0) k hk

/-- Witness for C9 amended: the example row's genuine replacements over
a one-token paragraph leave no CITY token behind. -/
theorem C9_no_tokens_remain_witness :
    hasOccur (("\x7b\x7bCITY\x7d\x7d").data)
      ((fillText (replacements exRow) ("Ship to \x7b\x7bCITY\x7d\x7d")).data)
      = false := by
  have h := C9_no_tokens_remain (replacements exRow) c9Doc (by decide)
    (by decide)
    (by
      intro t ht
      have heq : t = ("Ship to \x7b\x7bCITY\x7d\x7d") := by
        simpa [c9Doc] using ht
      rw [heq]
      exact clean_of_cleanB (by decide))
    (by
      intro tbl htbl
      simp [c9Doc] at htbl)
  exact h.1 (fillText (replacements exRow) ("Ship to \x7b\x7bCITY\x7d\x7d"))
    (by simp [fill_template, c9Doc]) ("\x7b\x7bCITY\x7d\x7d") (by decide)
